import Mathlib

/-!
Verification of the "Zio Peppe" primary-sector production simulator
(`project_work_settore_primario.py`).

Shallow embedding conventions:
* Python floats are modelled as exact rationals (`ℚ`).
* `round(x, 2)` is modelled as round-half-to-even at two decimals
  (`round2`), matching Python's documented rounding mode.
* Python `int(x)` (truncation toward zero) is `pyInt`; the float
  modulo `x % y` (sign of the divisor, via floor) is `pyMod`.
* A `KeyError` raised by `self.prodotti[prodotto]` is modelled as
  `Except.error key`; methods that can raise return `Except`.
* The mutable simulator object is a `Stato` record threaded
  explicitly; methods that write fields return a new `Stato`,
  methods that only read return the input state unchanged.
* The `random` quantity generator, `print` formatting and the
  `datetime` stamp are presentation glue outside the computational
  core and are not modelled.
-/

set_option maxRecDepth 100000

instance {e a : Type} [DecidableEq e] [DecidableEq a] : DecidableEq (Except e a) := fun x y =>
  match x, y with
  | Except.error u, Except.error v => decidable_of_iff (u = v) (by simp)
  | Except.error _, Except.ok _ => Decidable.isFalse (by simp)
  | Except.ok _, Except.error _ => Decidable.isFalse (by simp)
  | Except.ok u, Except.ok v => decidable_of_iff (u = v) (by simp)

/-- One entry of `self.prodotti` (lines 18-43 of the source). -/
structure Prodotto where
  nome : String
  tempo_per_kg : ℚ
  capacita_giornaliera : ℚ
  unita_misura : String
deriving DecidableEq

/-- The simulator state: `self.prodotti`, `self.sequenze`,
`self.quantita_produzione`, as insertion-ordered dictionaries
(association lists). -/
structure Stato where
  prodotti : List (String × Prodotto)
  sequenze : List (String × List String)
  quantita_produzione : List (String × ℚ)
deriving DecidableEq

/-- Round to the nearest integer, ties to the even integer
(Python's rounding mode for `round`). -/
def roundHalfEven (x : ℚ) : ℤ :=
  if Int.fract x < 1 / 2 then ⌊x⌋
  else if 1 / 2 < Int.fract x then ⌊x⌋ + 1
  else if ⌊x⌋ % 2 = 0 then ⌊x⌋ else ⌊x⌋ + 1

/-- Python `round(x, 2)`: round half to even at two decimal places. -/
def round2 (x : ℚ) : ℚ := (roundHalfEven (100 * x) : ℚ) / 100

/-- Python `int(x)` on a number: truncation toward zero. -/
def pyInt (x : ℚ) : ℤ := if 0 ≤ x then ⌊x⌋ else ⌈x⌉

/-- Python `x % y` on numbers: `x - y * floor(x / y)`. -/
def pyMod (x y : ℚ) : ℚ := x - y * ⌊x / y⌋

/-- Source lines 140-144: `giorni_effettivi` is `1` when the quantity
fits within the daily capacity, and otherwise
`int(quantita / capacita) + (1 if quantita % capacita > 0 else 0)`. -/
def calcGiorni (quantita capacita : ℚ) : ℤ :=
  if capacita < quantita then
    pyInt (quantita / capacita) + (if 0 < pyMod quantita capacita then 1 else 0)
  else 1

/-- The dictionary returned by `calcola_tempo_produzione`
(lines 146-153 of the source). -/
structure Risultato where
  prodotto : String
  quantita : ℚ
  tempo_lavorazione_ore : ℚ
  tempo_lavorazione_giorni : ℚ
  giorni_effettivi : ℤ
  tempo_totale_ore : ℚ
deriving DecidableEq

/-- `calcola_tempo_produzione` (source lines 118-153).
`self.prodotti[prodotto]` raises `KeyError` when the key is absent,
modelled as `Except.error prodotto`. -/
def calcola_tempo_produzione (s : Stato) (prodotto : String) (quantita : ℚ) :
    Except String Risultato :=
  match s.prodotti.lookup prodotto with
  | none => Except.error prodotto
  | some info_prodotto =>
    let tempo_per_unita := info_prodotto.tempo_per_kg
    let capacita_giornaliera := info_prodotto.capacita_giornaliera
    let giorni_necessari := quantita / capacita_giornaliera
    let tempo_lavorazione := quantita * tempo_per_unita
    let giorni_effettivi : ℤ := calcGiorni quantita capacita_giornaliera
    Except.ok
      { prodotto := info_prodotto.nome
        quantita := quantita
        tempo_lavorazione_ore := round2 tempo_lavorazione
        tempo_lavorazione_giorni := round2 giorni_necessari
        giorni_effettivi := giorni_effettivi
        tempo_totale_ore := round2 ((giorni_effettivi : ℚ) * 8) }

/-- The dictionary returned by `simula_sequenza_produttiva`
(source lines 204-210). -/
structure RapportoSequenza where
  sequenza : String
  dettagli_prodotti : List Risultato
  tempo_totale_ore : ℚ
  giorni_totali : ℤ
  ore_medie_giorno : ℚ
deriving DecidableEq

/-- The `for prodotto in self.sequenze[nome_sequenza]` loop of
`simula_sequenza_produttiva` (source lines 174-189), carrying the
three accumulators `risultati`, `tempo_totale_ore`,
`tempo_totale_giorni`.  A missing quantity is skipped (`continue`);
a `KeyError` from `calcola_tempo_produzione` propagates. -/
def loopSequenza (s : Stato) : List String → List Risultato → ℚ → ℤ →
    Except String (List Risultato × ℚ × ℤ)
  | [], risultati, tempo_totale_ore, tempo_totale_giorni =>
    Except.ok (risultati, tempo_totale_ore, tempo_totale_giorni)
  | prodotto :: resto, risultati, tempo_totale_ore, tempo_totale_giorni =>
    match s.quantita_produzione.lookup prodotto with
    | none => loopSequenza s resto risultati tempo_totale_ore tempo_totale_giorni
    | some quantita =>
      match calcola_tempo_produzione s prodotto quantita with
      | Except.error e => Except.error e
      | Except.ok risultato =>
        loopSequenza s resto (risultati ++ [risultato])
          (tempo_totale_ore + risultato.tempo_lavorazione_ore)
          (max tempo_totale_giorni risultato.giorni_effettivi)

/-- Compositional description of the loop's list of per-product
results: skip members without a quantity, propagate a `KeyError`. -/
def listaRisultati (s : Stato) : List String → Except String (List Risultato)
  | [] => Except.ok []
  | prodotto :: resto =>
    match s.quantita_produzione.lookup prodotto with
    | none => listaRisultati s resto
    | some quantita =>
      match calcola_tempo_produzione s prodotto quantita with
      | Except.error e => Except.error e
      | Except.ok risultato =>
        match listaRisultati s resto with
        | Except.error e => Except.error e
        | Except.ok ris => Except.ok (risultato :: ris)

/-- `simula_sequenza_produttiva` (source lines 155-210).  Returns the
(unchanged) state together with `Except.ok none` for an unknown
sequence name (Python returns `None`), `Except.error k` when a
member's catalog lookup raises, and otherwise the report. -/
def simula_sequenza_produttiva (s : Stato) (nome_sequenza : String) :
    Stato × Except String (Option RapportoSequenza) :=
  match s.sequenze.lookup nome_sequenza with
  | none => (s, Except.ok none)
  | some seq =>
    match loopSequenza s seq [] 0 0 with
    | Except.error e => (s, Except.error e)
    | Except.ok (risultati, tempo_totale_ore, tempo_totale_giorni) =>
      (s, Except.ok (some
        { sequenza := nome_sequenza
          dettagli_prodotti := risultati
          tempo_totale_ore := round2 tempo_totale_ore
          giorni_totali := tempo_totale_giorni
          ore_medie_giorno :=
            round2 (tempo_totale_ore / ((max tempo_totale_giorni 1 : ℤ) : ℚ)) }))

/-- The `totali_generali` dictionary of the full report
(source lines 263-268). -/
structure TotaliGenerali where
  tempo_totale_ore : ℚ
  giorni_totali : ℤ
  ore_medie_giorno : ℚ
  quantita_totale_kg : ℚ
deriving DecidableEq

/-- The dictionary returned by `rapporto_produzione_completo`
(source lines 226-270), without the presentation-only datetime stamp. -/
structure Rapporto where
  quantita_produzione : List (String × ℚ)
  sequenze : List (String × Option RapportoSequenza)
  totali_generali : TotaliGenerali
deriving DecidableEq

/-- The `for nome_sequenza in self.sequenze.keys()` loop of
`rapporto_produzione_completo` (source lines 233-235): one
`simula_sequenza_produttiva` call per configured sequence, in order;
an exception from a member propagates. -/
def simulaTutteSequenze (s : Stato) : List (String × List String) →
    Except String (List (String × Option RapportoSequenza))
  | [] => Except.ok []
  | (nome, _) :: resto =>
    match (simula_sequenza_produttiva s nome).2 with
    | Except.error e => Except.error e
    | Except.ok r =>
      match simulaTutteSequenze s resto with
      | Except.error e => Except.error e
      | Except.ok rs => Except.ok ((nome, r) :: rs)

/-- `rapporto_produzione_completo` (source lines 212-270).  Python's
`max(...)` over an empty generator raises `ValueError`, modelled as an
`Except.error`. -/
def rapporto_produzione_completo (s : Stato) : Except String Rapporto :=
  match simulaTutteSequenze s s.sequenze with
  | Except.error e => Except.error e
  | Except.ok seqs =>
    let tempo_totale_generale :=
      ((seqs.filterMap (fun kv => kv.2)).map (fun r => r.tempo_totale_ore)).sum
    match (seqs.filterMap (fun kv => kv.2)).map (fun r => r.giorni_totali) with
    | [] => Except.error "max() arg is an empty sequence"
    | g :: gs =>
      let giorni_totali_generale := gs.foldl max g
      let quantita_totale := (s.quantita_produzione.map (fun kv => kv.2)).sum
      Except.ok
        { quantita_produzione := s.quantita_produzione
          sequenze := seqs
          totali_generali :=
            { tempo_totale_ore := round2 tempo_totale_generale
              giorni_totali := giorni_totali_generale
              ore_medie_giorno :=
                round2 (tempo_totale_generale /
                  ((max giorni_totali_generale 1 : ℤ) : ℚ))
              quantita_totale_kg := quantita_totale } }

/-- In-place update of the single catalog entry with the given key
(`self.prodotti[prodotto][campo] = valore`). -/
def aggiornaCampo (l : List (String × Prodotto)) (k : String)
    (f : Prodotto → Prodotto) : List (String × Prodotto) :=
  l.map (fun kv => if kv.1 = k then (kv.1, f kv.2) else kv)

/-- `configura_tempo_produzione` (source lines 77-90): when the product
exists, replace its `tempo_per_kg`; otherwise the state is untouched. -/
def configura_tempo_produzione (s : Stato) (prodotto : String)
    (tempo_per_unita : ℚ) : Stato :=
  if (s.prodotti.lookup prodotto).isSome then
    { s with prodotti := (aggiornaCampo s.prodotti prodotto
        (fun p => { p with tempo_per_kg := tempo_per_unita })) }
  else s

/-- `configura_capacita_giornaliera` (source lines 92-105): when the
product exists, replace its `capacita_giornaliera`. -/
def configura_capacita_giornaliera (s : Stato) (prodotto : String)
    (capacita : ℚ) : Stato :=
  if (s.prodotti.lookup prodotto).isSome then
    { s with prodotti := (aggiornaCampo s.prodotti prodotto
        (fun p => { p with capacita_giornaliera := capacita })) }
  else s

/-- `x` is a whole number of hundredths (the range of `round2`). -/
def isCent (x : ℚ) : Prop := ∃ n : ℤ, x = (n : ℚ) / 100

/-- The default product catalog built by `__init__`
(source lines 18-43). -/
def defaultProdotti : List (String × Prodotto) :=
  [("carne_bovina", ⟨"Carne Bovina", 0.15, 500, "kg"⟩),
   ("carne_suina", ⟨"Carne Suina", 0.12, 400, "kg"⟩),
   ("salumi", ⟨"Salumi", 0.25, 200, "kg"⟩),
   ("formaggi", ⟨"Formaggi", 0.20, 150, "kg"⟩)]

/-- The default sequences built by `__init__` (source lines 46-49). -/
def defaultSequenze : List (String × List String) :=
  [("sequenza_macellazione", ["carne_bovina", "carne_suina"]),
   ("sequenza_trasformazione", ["salumi", "formaggi"])]

/-- The freshly constructed simulator: default catalog and sequences,
empty quantity table (source line 52). -/
def statoIniziale : Stato := ⟨defaultProdotti, defaultSequenze, []⟩

/-- `self.quantita_produzione[k] = q` for a key not yet present:
the entry is appended to the (insertion-ordered) quantity table. -/
def aggiungiQuantita (s : Stato) (k : String) (q : ℚ) : Stato :=
  { s with quantita_produzione := s.quantita_produzione ++ [(k, q)] }

/-- A concrete run: default configuration with chosen quantities
(650 kg of beef exercises the multi-day branch, as in the spec's
worked example). -/
def statoProva : Stato :=
  ⟨defaultProdotti, defaultSequenze,
   [("carne_bovina", 650), ("carne_suina", 200), ("salumi", 100), ("formaggi", 150)]⟩

/-- A state whose quantity table lacks the pork entry. -/
def statoSenzaSuina : Stato :=
  ⟨defaultProdotti, defaultSequenze, [("carne_bovina", 650)]⟩

/-- A state with a sequence and a quantity referring to a product key
(`mistero`) absent from the product catalog. -/
def statoMistero : Stato :=
  ⟨defaultProdotti,
   [("sequenza_test", ["mistero", "carne_bovina"])],
   [("mistero", 50), ("carne_bovina", 100)]⟩

/-- A one-product catalog whose rate makes the 2-decimal rounding of
the processing hours visible. -/
def statoLineare : Stato :=
  ⟨[("p", ⟨"P", 0.25, 500, "kg"⟩)], [], []⟩

/-- Estimate for 650 kg of beef (rate 0.15, capacity 500). -/
def risBovina650 : Risultato := ⟨"Carne Bovina", 650, 97.5, 1.3, 2, 16⟩

/-- Estimate for 200 kg of pork (rate 0.12, capacity 400). -/
def risSuina200 : Risultato := ⟨"Carne Suina", 200, 24, 0.5, 1, 8⟩

/-- Estimate for 100 kg of salumi (rate 0.25, capacity 200). -/
def risSalumi100 : Risultato := ⟨"Salumi", 100, 25, 0.5, 1, 8⟩

/-- Estimate for 150 kg of cheese (rate 0.20, capacity 150). -/
def risFormaggi150 : Risultato := ⟨"Formaggi", 150, 30, 1, 1, 8⟩

/-- The slaughter-line report for `statoProva`. -/
def repMacellazione : RapportoSequenza :=
  ⟨"sequenza_macellazione", [risBovina650, risSuina200], 121.5, 2, 60.75⟩

/-- The transformation-line report for `statoProva`. -/
def repTrasformazione : RapportoSequenza :=
  ⟨"sequenza_trasformazione", [risSalumi100, risFormaggi150], 55, 1, 55⟩

/-- The full facility report for `statoProva`. -/
def rapportoProva : Rapporto :=
  ⟨[("carne_bovina", 650), ("carne_suina", 200), ("salumi", 100), ("formaggi", 150)],
   [("sequenza_macellazione", some repMacellazione),
    ("sequenza_trasformazione", some repTrasformazione)],
   ⟨176.5, 2, 88.25, 1100⟩⟩

/-! ### Arithmetic lemmas about the rounding and day-count helpers -/

theorem roundHalfEven_intCast (n : ℤ) : roundHalfEven (n : ℚ) = n := by
  unfold roundHalfEven
  rw [Int.fract_intCast]
  rw [if_pos (by norm_num : (0 : ℚ) < 1 / 2)]
  exact Int.floor_intCast n

theorem roundHalfEven_le_of_le {x : ℚ} {n : ℤ} (h : x ≤ (n : ℚ)) :
    roundHalfEven x ≤ n := by
  have hfl : ⌊x⌋ ≤ n := by
    have h1 := Int.floor_le_floor h
    rwa [Int.floor_intCast] at h1
  have key : ¬ Int.fract x < 1 / 2 → ⌊x⌋ + 1 ≤ n := by
    intro hh
    by_contra hcon
    push_neg at hcon
    have hn : n = ⌊x⌋ := le_antisymm (by omega) hfl
    have hxf : x ≤ (⌊x⌋ : ℚ) := by rw [← hn]; exact h
    have hdef : Int.fract x = x - ⌊x⌋ := rfl
    have h0 : Int.fract x ≤ 0 := by rw [hdef]; linarith
    have h12 : (1 : ℚ) / 2 ≤ Int.fract x := not_lt.1 hh
    linarith
  unfold roundHalfEven
  split_ifs with h1 h2 h3
  · exact hfl
  · exact key h1
  · exact hfl
  · exact key h1

theorem round2_le_intCast {x : ℚ} {n : ℤ} (h : x ≤ (n : ℚ)) :
    round2 x ≤ (n : ℚ) := by
  have h1 : (100 : ℚ) * x ≤ ((100 * n : ℤ) : ℚ) := by push_cast; linarith
  have h2 : roundHalfEven (100 * x) ≤ 100 * n := roundHalfEven_le_of_le h1
  have h3 : ((roundHalfEven (100 * x) : ℤ) : ℚ) ≤ ((100 * n : ℤ) : ℚ) := by
    exact_mod_cast h2
  unfold round2
  rw [div_le_iff₀ (by norm_num : (0 : ℚ) < 100)]
  push_cast at h3 ⊢
  linarith

theorem isCent_round2 (x : ℚ) : isCent (round2 x) :=
  ⟨roundHalfEven (100 * x), rfl⟩

theorem isCent_zero : isCent 0 := ⟨0, by norm_num⟩

theorem isCent_add {x y : ℚ} (hx : isCent x) (hy : isCent y) : isCent (x + y) := by
  obtain ⟨m, rfl⟩ := hx
  obtain ⟨n, rfl⟩ := hy
  exact ⟨m + n, by push_cast; ring⟩

theorem isCent_sum {L : List ℚ} (h : ∀ x ∈ L, isCent x) : isCent L.sum := by
  induction L with
  | nil => exact isCent_zero
  | cons a t ih =>
    rw [List.sum_cons]
    exact isCent_add (h a (by simp)) (ih (fun x hx => h x (by simp [hx])))

theorem round2_eq_self {x : ℚ} (h : isCent x) : round2 x = x := by
  obtain ⟨n, rfl⟩ := h
  have h100 : (100 : ℚ) * ((n : ℚ) / 100) = (n : ℚ) := by ring
  unfold round2
  rw [h100, roundHalfEven_intCast]

theorem pyInt_eq_floor {x : ℚ} (h : 0 ≤ x) : pyInt x = ⌊x⌋ := by
  unfold pyInt
  rw [if_pos h]

theorem calcGiorni_eq_one {q c : ℚ} (h : q ≤ c) : calcGiorni q c = 1 := by
  unfold calcGiorni
  rw [if_neg (not_lt.2 h)]

theorem calcGiorni_eq_ceil {q c : ℚ} (hc : 0 < c) (h : c < q) :
    calcGiorni q c = ⌈q / c⌉ := by
  have hq : 0 < q := hc.trans h
  have hx : 0 ≤ q / c := le_of_lt (div_pos hq hc)
  unfold calcGiorni
  rw [if_pos h, pyInt_eq_floor hx]
  have hc0 : c ≠ 0 := ne_of_gt hc
  have h1 : c * (q / c) = q := by field_simp
  have hmod : pyMod q c = c * Int.fract (q / c) := by
    unfold pyMod Int.fract
    rw [mul_sub, h1]
  have hdef : Int.fract (q / c) = q / c - ⌊q / c⌋ := rfl
  rcases eq_or_lt_of_le (Int.fract_nonneg (q / c)) with hf | hf
  · have hfr : Int.fract (q / c) = 0 := hf.symm
    have hmz : ¬ 0 < pyMod q c := by
      rw [hmod, hfr, mul_zero]
      exact lt_irrefl 0
    rw [if_neg hmz, add_zero]
    have hqc : q / c = ((⌊q / c⌋ : ℤ) : ℚ) := by
      rw [hdef] at hfr
      linarith
    rw [hqc, Int.ceil_intCast, Int.floor_intCast]
  · have hmz : 0 < pyMod q c := by
      rw [hmod]
      exact mul_pos hc hf
    rw [if_pos hmz]
    symm
    rw [Int.ceil_eq_iff]
    rw [hdef] at hf
    constructor
    · push_cast
      linarith
    · push_cast
      have h2 := Int.lt_floor_add_one (q / c)
      linarith

theorem two_le_ceil_of_lt {q c : ℚ} (hc : 0 < c) (h : c < q) : 2 ≤ ⌈q / c⌉ := by
  have h1 : (1 : ℚ) < q / c := (one_lt_div hc).2 h
  have h2 : (1 : ℤ) < ⌈q / c⌉ := by
    rw [Int.lt_ceil]
    exact_mod_cast h1
  omega

/-! ### Association-list lookup lemmas -/

theorem lookup_cons {b : Type} (a k : String) (v : b) (l : List (String × b)) :
    List.lookup a ((k, v) :: l) = if a = k then some v else List.lookup a l := by
  by_cases h : a = k
  · have hb : (a == k) = true := beq_iff_eq.2 h
    simp [List.lookup, hb, h]
  · have hb : (a == k) = false := beq_eq_false_iff_ne.2 h
    simp [List.lookup, hb, h]

theorem lookup_append_sing_self {b : Type} {l : List (String × b)} {k : String}
    (q : b) (h : List.lookup k l = none) :
    List.lookup k (l ++ [(k, q)]) = some q := by
  induction l with
  | nil =>
    have hb : (k == k) = true := beq_iff_eq.2 rfl
    simp [List.lookup, hb]
  | cons kv t ih =>
    obtain ⟨a, v⟩ := kv
    rw [List.cons_append, lookup_cons]
    rw [lookup_cons] at h
    by_cases hk : k = a
    · rw [if_pos hk] at h
      cases h
    · rw [if_neg hk] at h ⊢
      exact ih h

theorem lookup_append_sing_ne {b : Type} (l : List (String × b)) {p k : String}
    (q : b) (h : p ≠ k) :
    List.lookup p (l ++ [(k, q)]) = List.lookup p l := by
  induction l with
  | nil =>
    have hb : (p == k) = false := beq_eq_false_iff_ne.2 h
    simp [List.lookup, hb]
  | cons kv t ih =>
    obtain ⟨a, v⟩ := kv
    rw [List.cons_append, lookup_cons, lookup_cons]
    by_cases hk : p = a
    · rw [if_pos hk, if_pos hk]
    · rw [if_neg hk, if_neg hk]
      exact ih

theorem lookup_aggiornaCampo_self (l : List (String × Prodotto)) (k : String)
    (f : Prodotto → Prodotto) :
    List.lookup k (aggiornaCampo l k f) = (List.lookup k l).map f := by
  induction l with
  | nil => simp [aggiornaCampo, List.lookup]
  | cons kv t ih =>
    obtain ⟨a, v⟩ := kv
    rw [aggiornaCampo, List.map_cons]
    by_cases hk : a = k
    · rw [if_pos (by simpa using hk)]
      rw [lookup_cons, lookup_cons, if_pos hk.symm, if_pos hk.symm]
      simp
    · rw [if_neg (by simpa using hk)]
      have hk' : ¬ k = a := fun hh => hk hh.symm
      rw [lookup_cons, lookup_cons, if_neg hk', if_neg hk']
      exact ih

theorem lookup_aggiornaCampo_ne (l : List (String × Prodotto)) {a k : String}
    (f : Prodotto → Prodotto) (h : a ≠ k) :
    List.lookup a (aggiornaCampo l k f) = List.lookup a l := by
  induction l with
  | nil => simp [aggiornaCampo, List.lookup]
  | cons kv t ih =>
    obtain ⟨b, v⟩ := kv
    rw [aggiornaCampo, List.map_cons]
    by_cases hk : b = k
    · rw [if_pos (by simpa using hk)]
      rw [lookup_cons, lookup_cons]
      have ha : ¬ a = b := fun hh => h (hh.trans hk)
      rw [if_neg ha, if_neg ha]
      exact ih
    · rw [if_neg (by simpa using hk)]
      rw [lookup_cons, lookup_cons]
      by_cases hab : a = b
      · rw [if_pos hab, if_pos hab]
      · rw [if_neg hab, if_neg hab]
        exact ih

/-! ### The estimator as a function of the catalog entry -/

theorem calcola_eq {s : Stato} {k : String} {info : Prodotto} (q : ℚ)
    (hp : s.prodotti.lookup k = some info) :
    calcola_tempo_produzione s k q = Except.ok
      { prodotto := info.nome
        quantita := q
        tempo_lavorazione_ore := round2 (q * info.tempo_per_kg)
        tempo_lavorazione_giorni := round2 (q / info.capacita_giornaliera)
        giorni_effettivi := calcGiorni q info.capacita_giornaliera
        tempo_totale_ore :=
          round2 ((calcGiorni q info.capacita_giornaliera : ℚ) * 8) } := by
  simp only [calcola_tempo_produzione, hp]

theorem calcola_error {s : Stato} {k : String} (q : ℚ)
    (hp : s.prodotti.lookup k = none) :
    calcola_tempo_produzione s k q = Except.error k := by
  simp only [calcola_tempo_produzione, hp]

theorem calcola_congr {s s' : Stato} (hp : s'.prodotti = s.prodotti)
    (p : String) (q : ℚ) :
    calcola_tempo_produzione s' p q = calcola_tempo_produzione s p q := by
  unfold calcola_tempo_produzione
  rw [hp]

theorem calcola_ok_isCent {s : Stato} {p : String} {q : ℚ} {r : Risultato}
    (h : calcola_tempo_produzione s p q = Except.ok r) :
    isCent r.tempo_lavorazione_ore := by
  cases hl : s.prodotti.lookup p with
  | none => rw [calcola_error q hl] at h; cases h
  | some info =>
    rw [calcola_eq q hl] at h
    injection h with h
    rw [← h]
    exact isCent_round2 _

/-! ### The loop of `simula_sequenza_produttiva` versus its
compositional description -/

theorem loopSequenza_error (s : Stato) (l : List String) (ris : List Risultato)
    (ore : ℚ) (giorni : ℤ) (e : String)
    (h : listaRisultati s l = Except.error e) :
    loopSequenza s l ris ore giorni = Except.error e := by
  induction l generalizing ris ore giorni with
  | nil =>
    simp only [listaRisultati] at h
    exact Except.noConfusion h
  | cons p t ih =>
    simp only [listaRisultati] at h
    simp only [loopSequenza]
    cases hq : s.quantita_produzione.lookup p with
    | none =>
      simp only [hq] at h ⊢
      exact ih _ _ _ h
    | some q =>
      simp only [hq] at h ⊢
      cases hc : calcola_tempo_produzione s p q with
      | error e2 =>
        simp only [hc] at h ⊢
        injection h with h
        rw [h]
      | ok r =>
        simp only [hc] at h ⊢
        cases hrest : listaRisultati s t with
        | error e2 =>
          simp only [hrest] at h
          injection h with h
          subst h
          exact ih _ _ _ hrest
        | ok ris2 =>
          simp only [hrest] at h
          exact Except.noConfusion h

theorem loopSequenza_ok (s : Stato) (l : List String) (ris : List Risultato)
    (ore : ℚ) (giorni : ℤ) (new : List Risultato)
    (h : listaRisultati s l = Except.ok new) :
    loopSequenza s l ris ore giorni = Except.ok
      (ris ++ new,
       ore + (new.map (fun r => r.tempo_lavorazione_ore)).sum,
       (new.map (fun r => r.giorni_effettivi)).foldl max giorni) := by
  induction l generalizing ris ore giorni new with
  | nil =>
    simp only [listaRisultati] at h
    injection h with h
    subst h
    simp [loopSequenza]
  | cons p t ih =>
    simp only [listaRisultati] at h
    simp only [loopSequenza]
    cases hq : s.quantita_produzione.lookup p with
    | none =>
      simp only [hq] at h ⊢
      exact ih _ _ _ _ h
    | some q =>
      simp only [hq] at h ⊢
      cases hc : calcola_tempo_produzione s p q with
      | error e2 =>
        simp only [hc] at h
        exact Except.noConfusion h
      | ok r =>
        simp only [hc] at h ⊢
        cases hrest : listaRisultati s t with
        | error e2 =>
          simp only [hrest] at h
          exact Except.noConfusion h
        | ok ris2 =>
          simp only [hrest] at h
          injection h with h
          subst h
          rw [ih _ _ _ _ hrest]
          simp [List.append_assoc, add_assoc]

/-! ### `simula_sequenza_produttiva` characterizations -/

theorem simula_eq_of_lista (s : Stato) (nome : String) (seq : List String)
    (new : List Risultato)
    (hs : s.sequenze.lookup nome = some seq)
    (hl : listaRisultati s seq = Except.ok new) :
    simula_sequenza_produttiva s nome = (s, Except.ok (some
      { sequenza := nome
        dettagli_prodotti := new
        tempo_totale_ore := round2 ((new.map (fun r => r.tempo_lavorazione_ore)).sum)
        giorni_totali := (new.map (fun r => r.giorni_effettivi)).foldl max 0
        ore_medie_giorno := round2 (((new.map (fun r => r.tempo_lavorazione_ore)).sum) /
          ((max ((new.map (fun r => r.giorni_effettivi)).foldl max 0) 1 : ℤ) : ℚ)) })) := by
  simp only [simula_sequenza_produttiva, hs]
  rw [loopSequenza_ok s seq [] 0 0 new hl]
  simp

theorem simula_error_of_lista (s : Stato) (nome : String) (seq : List String)
    (e : String)
    (hs : s.sequenze.lookup nome = some seq)
    (hl : listaRisultati s seq = Except.error e) :
    simula_sequenza_produttiva s nome = (s, Except.error e) := by
  simp only [simula_sequenza_produttiva, hs]
  rw [loopSequenza_error s seq [] 0 0 e hl]

theorem simula_ok_inv (s : Stato) (nome : String) (rep : RapportoSequenza)
    (h : (simula_sequenza_produttiva s nome).2 = Except.ok (some rep)) :
    ∃ seq, s.sequenze.lookup nome = some seq ∧
      listaRisultati s seq = Except.ok rep.dettagli_prodotti ∧
      rep.sequenza = nome ∧
      rep.tempo_totale_ore =
        round2 ((rep.dettagli_prodotti.map (fun r => r.tempo_lavorazione_ore)).sum) ∧
      rep.giorni_totali =
        (rep.dettagli_prodotti.map (fun r => r.giorni_effettivi)).foldl max 0 ∧
      rep.ore_medie_giorno =
        round2 (((rep.dettagli_prodotti.map (fun r => r.tempo_lavorazione_ore)).sum) /
          ((max rep.giorni_totali 1 : ℤ) : ℚ)) := by
  cases hs : s.sequenze.lookup nome with
  | none => simp [simula_sequenza_produttiva, hs] at h
  | some seq =>
    cases hl : listaRisultati s seq with
    | error e =>
      rw [simula_error_of_lista s nome seq e hs hl] at h
      exact Except.noConfusion h
    | ok new =>
      rw [simula_eq_of_lista s nome seq new hs hl] at h
      injection h with h
      injection h with h
      subst h
      exact ⟨seq, rfl, hl, rfl, rfl, rfl, rfl⟩

/-! ### Composition lemmas for the per-product result list -/

theorem listaRisultati_append_ok {s : Stato} {l1 l2 : List String}
    {a b : List Risultato}
    (h1 : listaRisultati s l1 = Except.ok a)
    (h2 : listaRisultati s l2 = Except.ok b) :
    listaRisultati s (l1 ++ l2) = Except.ok (a ++ b) := by
  induction l1 generalizing a with
  | nil =>
    simp only [listaRisultati] at h1
    injection h1 with h1
    subst h1
    simpa using h2
  | cons p t ih =>
    simp only [listaRisultati] at h1
    rw [List.cons_append]
    simp only [listaRisultati]
    cases hq : s.quantita_produzione.lookup p with
    | none =>
      simp only [hq] at h1 ⊢
      exact ih h1
    | some q =>
      simp only [hq] at h1 ⊢
      cases hc : calcola_tempo_produzione s p q with
      | error e =>
        simp only [hc] at h1
        exact Except.noConfusion h1
      | ok r =>
        simp only [hc] at h1 ⊢
        cases hrest : listaRisultati s t with
        | error e =>
          simp only [hrest] at h1
          exact Except.noConfusion h1
        | ok ris2 =>
          simp only [hrest] at h1
          injection h1 with h1
          subst h1
          rw [ih hrest]
          simp

theorem listaRisultati_append_error_left {s : Stato} {l1 l2 : List String}
    {e : String}
    (h1 : listaRisultati s l1 = Except.error e) :
    listaRisultati s (l1 ++ l2) = Except.error e := by
  induction l1 with
  | nil =>
    simp only [listaRisultati] at h1
    exact Except.noConfusion h1
  | cons p t ih =>
    simp only [listaRisultati] at h1
    rw [List.cons_append]
    simp only [listaRisultati]
    cases hq : s.quantita_produzione.lookup p with
    | none =>
      simp only [hq] at h1 ⊢
      exact ih h1
    | some q =>
      simp only [hq] at h1 ⊢
      cases hc : calcola_tempo_produzione s p q with
      | error e2 =>
        simp only [hc] at h1 ⊢
        exact h1
      | ok r =>
        simp only [hc] at h1 ⊢
        cases hrest : listaRisultati s t with
        | error e2 =>
          simp only [hrest] at h1
          injection h1 with h1
          subst h1
          simp only [ih hrest]
        | ok ris2 =>
          simp only [hrest] at h1
          exact Except.noConfusion h1

theorem listaRisultati_append_error_right {s : Stato} {l1 l2 : List String}
    {a : List Risultato} {e : String}
    (h1 : listaRisultati s l1 = Except.ok a)
    (h2 : listaRisultati s l2 = Except.error e) :
    listaRisultati s (l1 ++ l2) = Except.error e := by
  induction l1 generalizing a with
  | nil => exact h2
  | cons p t ih =>
    simp only [listaRisultati] at h1
    rw [List.cons_append]
    simp only [listaRisultati]
    cases hq : s.quantita_produzione.lookup p with
    | none =>
      simp only [hq] at h1 ⊢
      exact ih h1
    | some q =>
      simp only [hq] at h1 ⊢
      cases hc : calcola_tempo_produzione s p q with
      | error e2 =>
        simp only [hc] at h1
        exact Except.noConfusion h1
      | ok r =>
        simp only [hc] at h1 ⊢
        cases hrest : listaRisultati s t with
        | error e2 =>
          simp only [hrest] at h1
          exact Except.noConfusion h1
        | ok ris2 =>
          simp only [hrest] at h1
          rw [ih hrest]

theorem listaRisultati_congr {s s' : Stato} (hp : s'.prodotti = s.prodotti)
    {l : List String}
    (hq : ∀ p ∈ l, s'.quantita_produzione.lookup p =
      s.quantita_produzione.lookup p) :
    listaRisultati s' l = listaRisultati s l := by
  induction l with
  | nil => rfl
  | cons p t ih =>
    have hqp := hq p (by simp)
    have iht := ih (fun x hx => hq x (by simp [hx]))
    simp only [listaRisultati, hqp, iht, calcola_congr hp]

theorem listaRisultati_isCent {s : Stato} {l : List String} {ris : List Risultato}
    (h : listaRisultati s l = Except.ok ris) :
    ∀ r ∈ ris, isCent r.tempo_lavorazione_ore := by
  induction l generalizing ris with
  | nil =>
    simp only [listaRisultati] at h
    injection h with h
    subst h
    intro r hr
    exact absurd hr (List.not_mem_nil r)
  | cons p t ih =>
    simp only [listaRisultati] at h
    cases hq : s.quantita_produzione.lookup p with
    | none =>
      simp only [hq] at h
      exact ih h
    | some q =>
      simp only [hq] at h
      cases hc : calcola_tempo_produzione s p q with
      | error e =>
        simp only [hc] at h
        exact Except.noConfusion h
      | ok r =>
        simp only [hc] at h
        cases hrest : listaRisultati s t with
        | error e =>
          simp only [hrest] at h
          exact Except.noConfusion h
        | ok ris2 =>
          simp only [hrest] at h
          injection h with h
          subst h
          intro x hx
          rcases List.mem_cons.1 hx with hx | hx
          · subst hx
            exact calcola_ok_isCent hc
          · exact ih hrest x hx

theorem listaRisultati_ok_of_catalogo {s : Stato} {l : List String}
    (h : ∀ p ∈ l, s.quantita_produzione.lookup p = none ∨
      (s.prodotti.lookup p).isSome = true) :
    ∃ a, listaRisultati s l = Except.ok a := by
  induction l with
  | nil => exact ⟨[], rfl⟩
  | cons p t ih =>
    obtain ⟨a, ha⟩ := ih (fun x hx => h x (by simp [hx]))
    rcases h p (by simp) with hq | hq
    · exact ⟨a, by simp only [listaRisultati, hq, ha]⟩
    · cases hv : s.quantita_produzione.lookup p with
      | none => exact ⟨a, by simp only [listaRisultati, hv, ha]⟩
      | some qq =>
        obtain ⟨info, hinfo⟩ := Option.isSome_iff_exists.1 hq
        exact ⟨{ prodotto := info.nome
                 quantita := qq
                 tempo_lavorazione_ore := round2 (qq * info.tempo_per_kg)
                 tempo_lavorazione_giorni := round2 (qq / info.capacita_giornaliera)
                 giorni_effettivi := calcGiorni qq info.capacita_giornaliera
                 tempo_totale_ore :=
                   round2 ((calcGiorni qq info.capacita_giornaliera : ℚ) * 8) } :: a,
               by simp only [listaRisultati, hv, calcola_eq qq hinfo, ha]⟩

theorem listaRisultati_error_testa {s : Stato} {k : String} {post : List String}
    {q : ℚ}
    (hq : s.quantita_produzione.lookup k = some q)
    (hp : s.prodotti.lookup k = none) :
    listaRisultati s (k :: post) = Except.error k := by
  simp only [listaRisultati, hq, calcola_error q hp]

/-! ### `rapporto_produzione_completo` characterizations -/

theorem simulaTutte_isCent {s : Stato} {ls : List (String × List String)}
    {reports : List (String × Option RapportoSequenza)}
    (h : simulaTutteSequenze s ls = Except.ok reports) :
    ∀ kv ∈ reports, ∀ rep, kv.2 = some rep → isCent rep.tempo_totale_ore := by
  induction ls generalizing reports with
  | nil =>
    simp only [simulaTutteSequenze] at h
    injection h with h
    subst h
    intro kv hkv
    exact absurd hkv (List.not_mem_nil kv)
  | cons nv resto ih =>
    obtain ⟨nome, v⟩ := nv
    simp only [simulaTutteSequenze] at h
    cases hsim : (simula_sequenza_produttiva s nome).2 with
    | error e =>
      simp only [hsim] at h
      exact Except.noConfusion h
    | ok r =>
      simp only [hsim] at h
      cases hrest : simulaTutteSequenze s resto with
      | error e =>
        simp only [hrest] at h
        exact Except.noConfusion h
      | ok rs =>
        simp only [hrest] at h
        injection h with h
        subst h
        intro kv hkv rep hrep
        rcases List.mem_cons.1 hkv with hkv | hkv
        · subst hkv
          simp only at hrep
          subst hrep
          obtain ⟨seq, _, _, _, htempo, _, _⟩ := simula_ok_inv s nome rep hsim
          rw [htempo]
          exact isCent_round2 _
        · exact ih hrest kv hkv rep hrep

theorem rapporto_inv (s : Stato) (rap : Rapporto)
    (h : rapporto_produzione_completo s = Except.ok rap) :
    ∃ seqs g gs,
      simulaTutteSequenze s s.sequenze = Except.ok seqs ∧
      ((seqs.filterMap (fun kv => kv.2)).map (fun r => r.giorni_totali)) = g :: gs ∧
      rap.sequenze = seqs ∧
      rap.quantita_produzione = s.quantita_produzione ∧
      rap.totali_generali.tempo_totale_ore =
        round2 (((seqs.filterMap (fun kv => kv.2)).map
          (fun r => r.tempo_totale_ore)).sum) ∧
      rap.totali_generali.giorni_totali = gs.foldl max g ∧
      rap.totali_generali.ore_medie_giorno =
        round2 ((((seqs.filterMap (fun kv => kv.2)).map
          (fun r => r.tempo_totale_ore)).sum) /
          ((max rap.totali_generali.giorni_totali 1 : ℤ) : ℚ)) ∧
      rap.totali_generali.quantita_totale_kg =
        (s.quantita_produzione.map (fun kv => kv.2)).sum := by
  unfold rapporto_produzione_completo at h
  cases hst : simulaTutteSequenze s s.sequenze with
  | error e =>
    simp only [hst] at h
    exact Except.noConfusion h
  | ok seqs =>
    simp only [hst] at h
    cases hg : (seqs.filterMap (fun kv => kv.2)).map (fun r => r.giorni_totali) with
    | nil =>
      simp only [hg] at h
      exact Except.noConfusion h
    | cons g gs =>
      simp only [hg] at h
      injection h with h
      subst h
      exact ⟨seqs, g, gs, rfl, hg, rfl, rfl, rfl, rfl, rfl, rfl⟩

/-! ### Unfolding lemmas for the configuration updates -/

theorem configura_tempo_eq {s : Stato} {k : String} (v : ℚ)
    (hp : (s.prodotti.lookup k).isSome = true) :
    configura_tempo_produzione s k v =
      { s with prodotti := (aggiornaCampo s.prodotti k
          (fun p => { p with tempo_per_kg := v })) } := by
  unfold configura_tempo_produzione
  rw [if_pos hp]

theorem configura_capacita_eq {s : Stato} {k : String} (w : ℚ)
    (hp : (s.prodotti.lookup k).isSome = true) :
    configura_capacita_giornaliera s k w =
      { s with prodotti := (aggiornaCampo s.prodotti k
          (fun p => { p with capacita_giornaliera := w })) } := by
  unfold configura_capacita_giornaliera
  rw [if_pos hp]

/-! ### Claim C1 -/

/-- C1: for every catalog entry with positive daily capacity and every
quantity `q ≥ 0`, the estimate's `giorni_effettivi` equals `1` when
`q ≤ capacita_giornaliera`, and equals `ceil (q / capacita_giornaliera)`
(which is at least 2) when `q > capacita_giornaliera`. -/
theorem C1_giorni_effettivi (s : Stato) (k : String) (info : Prodotto) (q : ℚ)
    (r : Risultato)
    (hp : s.prodotti.lookup k = some info)
    (hcap : 0 < info.capacita_giornaliera) (hq : 0 ≤ q)
    (hr : calcola_tempo_produzione s k q = Except.ok r) :
    (q ≤ info.capacita_giornaliera → r.giorni_effettivi = 1) ∧
    (info.capacita_giornaliera < q →
      r.giorni_effettivi = ⌈q / info.capacita_giornaliera⌉ ∧
      2 ≤ r.giorni_effettivi) := by
  rw [calcola_eq q hp] at hr
  injection hr with hr
  subst hr
  constructor
  · intro hle
    exact calcGiorni_eq_one hle
  · intro hlt
    have h1 := calcGiorni_eq_ceil hcap hlt
    refine ⟨h1, ?_⟩
    show 2 ≤ calcGiorni q info.capacita_giornaliera
    rw [h1]
    exact two_le_ceil_of_lt hcap hlt

/-- Witness for C1: beef, capacity 500, quantity 650, in the default
catalog: the estimate's day count is `ceil (650/500) = 2`. -/
theorem C1_witness :
    risBovina650.giorni_effettivi = ⌈(650 : ℚ) / 500⌉ ∧
    2 ≤ risBovina650.giorni_effettivi := by
  have h := C1_giorni_effettivi statoIniziale "carne_bovina"
    ⟨"Carne Bovina", 0.15, 500, "kg"⟩ 650 risBovina650
    (by with_unfolding_all decide) (by with_unfolding_all decide)
    (by norm_num) (by with_unfolding_all decide)
  exact h.2 (by with_unfolding_all decide)

/-! ### Claim C5 -/

/-- C5: in every estimate produced with positive daily capacity and
non-negative quantity, the integer `giorni_effettivi` is at least the
reported fractional `tempo_lavorazione_giorni` (the rounded ratio
`q / capacita`). -/
theorem C5_giorni_effettivi_ge_frazione (s : Stato) (k : String)
    (info : Prodotto) (q : ℚ) (r : Risultato)
    (hp : s.prodotti.lookup k = some info)
    (hcap : 0 < info.capacita_giornaliera) (hq : 0 ≤ q)
    (hr : calcola_tempo_produzione s k q = Except.ok r) :
    r.tempo_lavorazione_giorni ≤ (r.giorni_effettivi : ℚ) := by
  rw [calcola_eq q hp] at hr
  injection hr with hr
  subst hr
  show round2 (q / info.capacita_giornaliera) ≤
    ((calcGiorni q info.capacita_giornaliera : ℤ) : ℚ)
  by_cases hle : q ≤ info.capacita_giornaliera
  · rw [calcGiorni_eq_one hle]
    have hx : q / info.capacita_giornaliera ≤ ((1 : ℤ) : ℚ) := by
      rw [Int.cast_one]
      exact (div_le_one hcap).2 hle
    have h2 := round2_le_intCast hx
    simpa using h2
  · push_neg at hle
    rw [calcGiorni_eq_ceil hcap hle]
    exact round2_le_intCast (Int.le_ceil _)

/-- Witness for C5: beef at quantity 650 reports
`tempo_lavorazione_giorni = 1.3 ≤ 2 = giorni_effettivi`. -/
theorem C5_witness :
    risBovina650.tempo_lavorazione_giorni ≤ (risBovina650.giorni_effettivi : ℚ) :=
  C5_giorni_effettivi_ge_frazione statoIniziale "carne_bovina"
    ⟨"Carne Bovina", 0.15, 500, "kg"⟩ 650 risBovina650
    (by with_unfolding_all decide) (by with_unfolding_all decide)
    (by norm_num) (by with_unfolding_all decide)

/-! ### Claim C10 -/

/-- C10: simulating a sequence name that is not configured returns the
absent result (Python `None`, here `Except.ok none`) — neither a report
nor an exception — and returns the state unchanged. -/
theorem C10_sequenza_inesistente (s : Stato) (nome : String)
    (h : s.sequenze.lookup nome = none) :
    simula_sequenza_produttiva s nome = (s, Except.ok none) := by
  simp [simula_sequenza_produttiva, h]

/-- Witness for C10: the default configuration has no sequence called
`sequenza_stagionatura`. -/
theorem C10_witness :
    simula_sequenza_produttiva statoIniziale "sequenza_stagionatura" =
      (statoIniziale, Except.ok none) :=
  C10_sequenza_inesistente statoIniziale "sequenza_stagionatura"
    (by with_unfolding_all decide)

/-! ### Claim C3 -/

/-- C3 (amended): the processing hours are linear in the quantity
before the final 2-decimal rounding: the stored `tempo_lavorazione_ore`
equals `round2 (q * tempo_per_kg)`, and at quantity `2q` it equals
`round2` of exactly twice `q * tempo_per_kg`.  The rounded field itself
need not double exactly. -/
theorem C3_linearita_prima_di_arrotondare (s : Stato) (k : String)
    (info : Prodotto) (q : ℚ)
    (hp : s.prodotti.lookup k = some info) :
    (calcola_tempo_produzione s k q).toOption.map
        (fun r => r.tempo_lavorazione_ore) =
      some (round2 (q * info.tempo_per_kg)) ∧
    (calcola_tempo_produzione s k (2 * q)).toOption.map
        (fun r => r.tempo_lavorazione_ore) =
      some (round2 (2 * (q * info.tempo_per_kg))) := by
  constructor
  · rw [calcola_eq q hp]
    rfl
  · rw [calcola_eq (2 * q) hp]
    show some (round2 (2 * q * info.tempo_per_kg)) =
      some (round2 (2 * (q * info.tempo_per_kg)))
    rw [mul_assoc]

/-- C3 counterexample: with rate 0.25, quantity 0.5 stores
`round(0.125, 2) = 0.12` processing hours, while quantity `1 = 2 × 0.5`
stores `0.25`, and `0.25 ≠ 2 × 0.12 = 0.24`: the rounded field is not
exactly linear. -/
theorem C3_counterexample :
    (calcola_tempo_produzione statoLineare "p" (2 * (1 / 2 : ℚ))).toOption.map
        (fun r => r.tempo_lavorazione_ore) = some (0.25 : ℚ) ∧
    (calcola_tempo_produzione statoLineare "p" (1 / 2 : ℚ)).toOption.map
        (fun r => 2 * r.tempo_lavorazione_ore) = some (0.24 : ℚ) ∧
    ¬ ((0.25 : ℚ) = (0.24 : ℚ)) := by
  refine ⟨?_, ?_, ?_⟩ <;> with_unfolding_all decide

/-- Witness for C3 (amended) at rate 0.25 and quantity 3. -/
theorem C3_witness :
    (calcola_tempo_produzione statoLineare "p" (3 : ℚ)).toOption.map
        (fun r => r.tempo_lavorazione_ore) = some (round2 ((3 : ℚ) * 0.25)) ∧
    (calcola_tempo_produzione statoLineare "p" (2 * (3 : ℚ))).toOption.map
        (fun r => r.tempo_lavorazione_ore) = some (round2 (2 * ((3 : ℚ) * 0.25))) :=
  C3_linearita_prima_di_arrotondare statoLineare "p" ⟨"P", 0.25, 500, "kg"⟩ 3
    (by with_unfolding_all decide)

/-! ### Claim C2 -/

theorem init_le_foldl_max (l : List ℤ) (a : ℤ) : a ≤ l.foldl max a := by
  induction l generalizing a with
  | nil => exact le_refl a
  | cons b t ih => exact le_trans (le_max_left a b) (ih (max a b))

theorem mem_le_foldl_max {l : List ℤ} (a : ℤ) {x : ℤ} (hx : x ∈ l) :
    x ≤ l.foldl max a := by
  induction l generalizing a with
  | nil => exact absurd hx (List.not_mem_nil x)
  | cons b t ih =>
    rcases List.mem_cons.1 hx with h | h
    · subst h
      exact le_trans (le_max_right a x) (init_le_foldl_max t (max a x))
    · exact ih (max a b) h

/-- C2 (amended): the sequence report's `giorni_totali` is the max-fold
(from 0) of the member estimates' `giorni_effettivi` — every member's
day count is bounded by it, it is never their sum — and a sequence with
no resolvable members reports `giorni_totali = 0` (not 1; only the
downstream average divides by `max(giorni_totali, 1)`). -/
theorem C2_giorni_totali_max (s : Stato) (nome : String) (rep : RapportoSequenza)
    (h : (simula_sequenza_produttiva s nome).2 = Except.ok (some rep)) :
    rep.giorni_totali =
      (rep.dettagli_prodotti.map (fun r => r.giorni_effettivi)).foldl max 0 ∧
    (∀ x ∈ rep.dettagli_prodotti, x.giorni_effettivi ≤ rep.giorni_totali) ∧
    (rep.dettagli_prodotti = [] → rep.giorni_totali = 0) := by
  obtain ⟨seq, _, _, _, _, hg, _⟩ := simula_ok_inv s nome rep h
  refine ⟨hg, ?_, ?_⟩
  · intro x hx
    rw [hg]
    exact mem_le_foldl_max 0 (List.mem_map_of_mem (fun r => r.giorni_effettivi) hx)
  · intro hnil
    rw [hg, hnil]
    rfl

/-- C2 counterexample: with an empty quantity table every member of
`sequenza_macellazione` is skipped, and the produced report carries
`giorni_totali = 0`, not 1 as claimed. -/
theorem C2_counterexample :
    (simula_sequenza_produttiva statoIniziale "sequenza_macellazione").2 =
      Except.ok (some ⟨"sequenza_macellazione", [], 0, 0, 0⟩) ∧
    ¬ ((⟨"sequenza_macellazione", [], 0, 0, 0⟩ : RapportoSequenza).giorni_totali
        = 1) := by
  constructor <;> with_unfolding_all decide

/-- Witness for C2 (amended) on the slaughter sequence of `statoProva`. -/
theorem C2_witness :
    repMacellazione.giorni_totali =
      (repMacellazione.dettagli_prodotti.map
        (fun r => r.giorni_effettivi)).foldl max 0 ∧
    (∀ x ∈ repMacellazione.dettagli_prodotti,
      x.giorni_effettivi ≤ repMacellazione.giorni_totali) ∧
    (repMacellazione.dettagli_prodotti = [] →
      repMacellazione.giorni_totali = 0) :=
  C2_giorni_totali_max statoProva "sequenza_macellazione" repMacellazione
    (by with_unfolding_all decide)

/-! ### Claim C7 -/

/-- C7: the sequence report's `tempo_totale_ore` equals the sum of the
member estimates' `tempo_lavorazione_ore` within 1e-9.  In the exact
rational model the two are equal: every member value is a whole number
of hundredths, so the final `round(·, 2)` is the identity on their sum. -/
theorem C7_somma_ore (s : Stato) (nome : String) (rep : RapportoSequenza)
    (h : (simula_sequenza_produttiva s nome).2 = Except.ok (some rep)) :
    |rep.tempo_totale_ore -
      (rep.dettagli_prodotti.map (fun r => r.tempo_lavorazione_ore)).sum| ≤
      1 / 1000000000 := by
  obtain ⟨seq, _, hl, _, ht, _, _⟩ := simula_ok_inv s nome rep h
  have hcent : isCent
      ((rep.dettagli_prodotti.map (fun r => r.tempo_lavorazione_ore)).sum) := by
    apply isCent_sum
    intro x hx
    obtain ⟨r, hr, hrx⟩ := List.mem_map.1 hx
    rw [← hrx]
    exact listaRisultati_isCent hl r hr
  rw [ht, round2_eq_self hcent, sub_self, abs_zero]
  norm_num

/-- Witness for C7 on the slaughter sequence of `statoProva`
(97.5 + 24 = 121.5). -/
theorem C7_witness :
    |repMacellazione.tempo_totale_ore -
      (repMacellazione.dettagli_prodotti.map
        (fun r => r.tempo_lavorazione_ore)).sum| ≤ 1 / 1000000000 :=
  C7_somma_ore statoProva "sequenza_macellazione" repMacellazione
    (by with_unfolding_all decide)

/-! ### Claim C8 -/

/-- C8: both at sequence level and at facility level, the reported
`ore_medie_giorno` is the rounding of total processing hours divided by
`max(total_days, 1)` — a strictly positive divisor, so the division
never divides by zero, even when `giorni_totali = 0` (all members
skipped). -/
theorem C8_divisione_sicura :
    (∀ (s : Stato) (nome : String) (rep : RapportoSequenza),
      (simula_sequenza_produttiva s nome).2 = Except.ok (some rep) →
      rep.ore_medie_giorno =
        round2 (rep.tempo_totale_ore / ((max rep.giorni_totali 1 : ℤ) : ℚ)) ∧
      (0 : ℤ) < max rep.giorni_totali 1) ∧
    (∀ (s : Stato) (rap : Rapporto),
      rapporto_produzione_completo s = Except.ok rap →
      rap.totali_generali.ore_medie_giorno =
        round2 (rap.totali_generali.tempo_totale_ore /
          ((max rap.totali_generali.giorni_totali 1 : ℤ) : ℚ)) ∧
      (0 : ℤ) < max rap.totali_generali.giorni_totali 1) := by
  constructor
  · intro s nome rep h
    obtain ⟨seq, _, hl, _, ht, _, hm⟩ := simula_ok_inv s nome rep h
    have hcent : isCent
        ((rep.dettagli_prodotti.map (fun r => r.tempo_lavorazione_ore)).sum) := by
      apply isCent_sum
      intro x hx
      obtain ⟨r, hr, hrx⟩ := List.mem_map.1 hx
      rw [← hrx]
      exact listaRisultati_isCent hl r hr
    constructor
    · rw [hm, ht, round2_eq_self hcent]
    · have h1 := le_max_right rep.giorni_totali (1 : ℤ)
      omega
  · intro s rap h
    obtain ⟨seqs, g, gs, hst, hg, _, _, ht, _, hm, _⟩ := rapporto_inv s rap h
    have hcent : isCent
        (((seqs.filterMap (fun kv => kv.2)).map
          (fun r => r.tempo_totale_ore)).sum) := by
      apply isCent_sum
      intro x hx
      obtain ⟨r, hr, hrx⟩ := List.mem_map.1 hx
      obtain ⟨kv, hkv, hkvr⟩ := List.mem_filterMap.1 hr
      rw [← hrx]
      exact simulaTutte_isCent hst kv hkv r hkvr
    constructor
    · rw [hm, ht, round2_eq_self hcent]
    · have h1 := le_max_right rap.totali_generali.giorni_totali (1 : ℤ)
      omega

/-- Witness for C8 on `statoProva`: sequence level (121.5 / 2) and
facility level (176.5 / 2). -/
theorem C8_witness :
    (repMacellazione.ore_medie_giorno =
      round2 (repMacellazione.tempo_totale_ore /
        ((max repMacellazione.giorni_totali 1 : ℤ) : ℚ)) ∧
     (0 : ℤ) < max repMacellazione.giorni_totali 1) ∧
    (rapportoProva.totali_generali.ore_medie_giorno =
      round2 (rapportoProva.totali_generali.tempo_totale_ore /
        ((max rapportoProva.totali_generali.giorni_totali 1 : ℤ) : ℚ)) ∧
     (0 : ℤ) < max rapportoProva.totali_generali.giorni_totali 1) :=
  ⟨C8_divisione_sicura.1 statoProva "sequenza_macellazione" repMacellazione
     (by with_unfolding_all decide),
   C8_divisione_sicura.2 statoProva rapportoProva
     (by with_unfolding_all decide)⟩

/-! ### Claim C4 -/

/-- C4 (amended): a configuration error — a product key present in the
sequence and in the quantity table but absent from the product
catalog — aborts the whole aggregation pass, not just that product's
estimate: the `KeyError` propagates out of `simula_sequenza_produttiva`
(provided no earlier member fails first), so sibling estimates after it
are not computed and no report is produced. -/
theorem C4_errore_configurazione_abortisce (s : Stato) (nome k : String)
    (q : ℚ) (pre post : List String)
    (hseq : s.sequenze.lookup nome = some (pre ++ k :: post))
    (hq : s.quantita_produzione.lookup k = some q)
    (hp : s.prodotti.lookup k = none)
    (hpre : ∀ p ∈ pre, s.quantita_produzione.lookup p = none ∨
      (s.prodotti.lookup p).isSome = true) :
    (simula_sequenza_produttiva s nome).2 = Except.error k := by
  obtain ⟨a, ha⟩ := listaRisultati_ok_of_catalogo hpre
  have herr : listaRisultati s (k :: post) = Except.error k :=
    listaRisultati_error_testa hq hp
  have hall : listaRisultati s (pre ++ k :: post) = Except.error k :=
    listaRisultati_append_error_right ha herr
  rw [simula_error_of_lista s nome (pre ++ k :: post) k hseq hall]

/-- C4 counterexample: in `statoMistero`, `sequenza_test` references
`mistero`, which has a quantity but no catalog entry.  The pass does
not continue to a report with the sibling `carne_bovina`: it aborts
with the propagated `KeyError`. -/
theorem C4_counterexample :
    (simula_sequenza_produttiva statoMistero "sequenza_test").2 =
      Except.error "mistero" ∧
    ((simula_sequenza_produttiva statoMistero "sequenza_test").2).toOption
      = none := by
  constructor <;> with_unfolding_all decide

/-- Witness for C4 (amended) on `statoMistero`. -/
theorem C4_witness :
    (simula_sequenza_produttiva statoMistero "sequenza_test").2 =
      Except.error "mistero" :=
  C4_errore_configurazione_abortisce statoMistero "sequenza_test" "mistero" 50
    [] ["carne_bovina"]
    (by with_unfolding_all decide) (by with_unfolding_all decide)
    (by with_unfolding_all decide) (by simp)

/-! ### Claim C6 -/

/-- C6: when a sequence references a key `k` with no supplied quantity,
the pass skips exactly that member: the result list is the
concatenation of the results of the other members (each identical to
what it would be without `k`), the report's totals are computed over
those resolved members only, and supplying a quantity for `k` (with
`k` in the catalog) yields the same list with one extra estimate
inserted in place — one element longer. -/
theorem C6_salto_senza_quantita (s : Stato) (k nome : String) (q : ℚ)
    (pre post : List String) (info : Prodotto) (a b : List Risultato)
    (hq : s.quantita_produzione.lookup k = none)
    (hp : s.prodotti.lookup k = some info)
    (hk1 : k ∉ pre) (hk2 : k ∉ post)
    (hseq : s.sequenze.lookup nome = some (pre ++ k :: post))
    (ha : listaRisultati s pre = Except.ok a)
    (hb : listaRisultati s post = Except.ok b) :
    listaRisultati s (pre ++ k :: post) = Except.ok (a ++ b) ∧
    (simula_sequenza_produttiva s nome).2 = Except.ok (some
      { sequenza := nome
        dettagli_prodotti := a ++ b
        tempo_totale_ore :=
          round2 (((a ++ b).map (fun r => r.tempo_lavorazione_ore)).sum)
        giorni_totali :=
          ((a ++ b).map (fun r => r.giorni_effettivi)).foldl max 0
        ore_medie_giorno :=
          round2 ((((a ++ b).map (fun r => r.tempo_lavorazione_ore)).sum) /
            ((max (((a ++ b).map (fun r => r.giorni_effettivi)).foldl max 0) 1
              : ℤ) : ℚ)) }) ∧
    ∃ r, calcola_tempo_produzione s k q = Except.ok r ∧
      listaRisultati (aggiungiQuantita s k q) (pre ++ k :: post) =
        Except.ok (a ++ r :: b) ∧
      (a ++ r :: b).length = (a ++ b).length + 1 := by
  have hkc : listaRisultati s (k :: post) = Except.ok b := by
    simp only [listaRisultati, hq]
    exact hb
  have h1 := listaRisultati_append_ok ha hkc
  have h2 := simula_eq_of_lista s nome (pre ++ k :: post) (a ++ b) hseq h1
  refine ⟨h1, by rw [h2], ?_⟩
  have hprod : (aggiungiQuantita s k q).prodotti = s.prodotti := rfl
  have hqk : (aggiungiQuantita s k q).quantita_produzione.lookup k = some q := by
    show List.lookup k (s.quantita_produzione ++ [(k, q)]) = some q
    exact lookup_append_sing_self q hq
  have hqne : ∀ p, p ≠ k →
      (aggiungiQuantita s k q).quantita_produzione.lookup p =
        s.quantita_produzione.lookup p := by
    intro p hpk
    show List.lookup p (s.quantita_produzione ++ [(k, q)]) =
      List.lookup p s.quantita_produzione
    exact lookup_append_sing_ne _ q hpk
  have ha2 : listaRisultati (aggiungiQuantita s k q) pre = Except.ok a := by
    rw [listaRisultati_congr hprod
      (fun p hpm => hqne p (fun he => hk1 (he ▸ hpm)))]
    exact ha
  have hb2 : listaRisultati (aggiungiQuantita s k q) post = Except.ok b := by
    rw [listaRisultati_congr hprod
      (fun p hpm => hqne p (fun he => hk2 (he ▸ hpm)))]
    exact hb
  refine ⟨_, calcola_eq q hp, ?_, ?_⟩
  · refine listaRisultati_append_ok ha2 ?_
    simp only [listaRisultati, hqk, calcola_congr hprod, calcola_eq q hp, hb2]
  · simp
    omega

/-- Witness for C6: `statoSenzaSuina` lacks a pork quantity, so the
slaughter sequence resolves to the beef estimate alone. -/
theorem C6_witness :
    listaRisultati statoSenzaSuina (["carne_bovina"] ++ "carne_suina" :: []) =
      Except.ok ([risBovina650] ++ ([] : List Risultato)) ∧
    (simula_sequenza_produttiva statoSenzaSuina "sequenza_macellazione").2 =
      Except.ok (some
        { sequenza := "sequenza_macellazione"
          dettagli_prodotti := [risBovina650] ++ ([] : List Risultato)
          tempo_totale_ore := round2 ((([risBovina650] ++ ([] : List Risultato)).map
            (fun (r : Risultato) => r.tempo_lavorazione_ore)).sum)
          giorni_totali := (([risBovina650] ++ ([] : List Risultato)).map
            (fun (r : Risultato) => r.giorni_effettivi)).foldl max 0
          ore_medie_giorno := round2 (((([risBovina650] ++ ([] : List Risultato)).map
            (fun (r : Risultato) => r.tempo_lavorazione_ore)).sum) /
            ((max ((([risBovina650] ++ ([] : List Risultato)).map
              (fun (r : Risultato) => r.giorni_effettivi)).foldl max 0) 1 : ℤ) : ℚ)) }) := by
  have h := C6_salto_senza_quantita statoSenzaSuina "carne_suina"
    "sequenza_macellazione" 200 ["carne_bovina"] []
    ⟨"Carne Suina", 0.12, 400, "kg"⟩ [risBovina650] []
    (by with_unfolding_all decide) (by with_unfolding_all decide)
    (by with_unfolding_all decide) (by with_unfolding_all decide)
    (by with_unfolding_all decide) (by with_unfolding_all decide)
    (by with_unfolding_all decide)
  exact ⟨h.1, h.2.1⟩

/-! ### Claim C9 -/

/-- C9: for an existing product key, `configura_tempo_produzione`
replaces exactly the `tempo_per_kg` field of exactly that product and
`configura_capacita_giornaliera` exactly its `capacita_giornaliera`;
every other product's entry, the sequence table and the quantity table
are unchanged, and estimates computed afterwards use the new value. -/
theorem C9_aggiornamento_configurazione (s : Stato) (k : String) (v w : ℚ)
    (info : Prodotto)
    (hp : s.prodotti.lookup k = some info) (hw : 0 < w) :
    (configura_tempo_produzione s k v).prodotti.lookup k =
      some { info with tempo_per_kg := v } ∧
    (∀ k2, k2 ≠ k → (configura_tempo_produzione s k v).prodotti.lookup k2 =
      s.prodotti.lookup k2) ∧
    (configura_tempo_produzione s k v).sequenze = s.sequenze ∧
    (configura_tempo_produzione s k v).quantita_produzione =
      s.quantita_produzione ∧
    (configura_capacita_giornaliera s k w).prodotti.lookup k =
      some { info with capacita_giornaliera := w } ∧
    (∀ k2, k2 ≠ k → (configura_capacita_giornaliera s k w).prodotti.lookup k2 =
      s.prodotti.lookup k2) ∧
    (configura_capacita_giornaliera s k w).sequenze = s.sequenze ∧
    (configura_capacita_giornaliera s k w).quantita_produzione =
      s.quantita_produzione ∧
    (∀ q, (calcola_tempo_produzione (configura_tempo_produzione s k v) k
        q).toOption.map (fun r => r.tempo_lavorazione_ore) =
      some (round2 (q * v))) ∧
    (∀ q, (calcola_tempo_produzione (configura_capacita_giornaliera s k w) k
        q).toOption.map (fun r => r.tempo_lavorazione_giorni) =
      some (round2 (q / w))) := by
  have hps : (s.prodotti.lookup k).isSome = true := by rw [hp]; rfl
  have e1 := configura_tempo_eq v hps
  have e2 := configura_capacita_eq w hps
  have l1 : (configura_tempo_produzione s k v).prodotti.lookup k =
      some { info with tempo_per_kg := v } := by
    rw [e1]
    show List.lookup k (aggiornaCampo s.prodotti k
      (fun p => { p with tempo_per_kg := v })) = _
    rw [lookup_aggiornaCampo_self, hp]
    rfl
  have l2 : (configura_capacita_giornaliera s k w).prodotti.lookup k =
      some { info with capacita_giornaliera := w } := by
    rw [e2]
    show List.lookup k (aggiornaCampo s.prodotti k
      (fun p => { p with capacita_giornaliera := w })) = _
    rw [lookup_aggiornaCampo_self, hp]
    rfl
  refine ⟨l1, ?_, by rw [e1], by rw [e1], l2, ?_, by rw [e2], by rw [e2], ?_, ?_⟩
  · intro k2 hk2
    rw [e1]
    show List.lookup k2 (aggiornaCampo s.prodotti k
      (fun p => { p with tempo_per_kg := v })) = List.lookup k2 s.prodotti
    exact lookup_aggiornaCampo_ne _ _ hk2
  · intro k2 hk2
    rw [e2]
    show List.lookup k2 (aggiornaCampo s.prodotti k
      (fun p => { p with capacita_giornaliera := w })) = List.lookup k2 s.prodotti
    exact lookup_aggiornaCampo_ne _ _ hk2
  · intro q
    rw [calcola_eq q l1]
    rfl
  · intro q
    rw [calcola_eq q l2]
    rfl

/-- Witness for C9: update beef's rate to 0.18 and its capacity to 450
in the default catalog; check the updated entry, an untouched sibling,
the untouched sequence table and a subsequent estimate. -/
theorem C9_witness :
    (configura_tempo_produzione statoIniziale "carne_bovina"
      0.18).prodotti.lookup "carne_bovina" =
      some ⟨"Carne Bovina", 0.18, 500, "kg"⟩ ∧
    (configura_tempo_produzione statoIniziale "carne_bovina" 0.18).sequenze =
      statoIniziale.sequenze ∧
    (configura_capacita_giornaliera statoIniziale "carne_bovina"
      450).prodotti.lookup "salumi" = statoIniziale.prodotti.lookup "salumi" ∧
    (calcola_tempo_produzione
        (configura_tempo_produzione statoIniziale "carne_bovina" 0.18)
        "carne_bovina" 100).toOption.map (fun r => r.tempo_lavorazione_ore) =
      some (round2 ((100 : ℚ) * 0.18)) := by
  have h := C9_aggiornamento_configurazione statoIniziale "carne_bovina"
    0.18 450 ⟨"Carne Bovina", 0.15, 500, "kg"⟩
    (by with_unfolding_all decide) (by norm_num)
  exact ⟨h.1, h.2.2.1, h.2.2.2.2.2.1 "salumi" (by with_unfolding_all decide),
    h.2.2.2.2.2.2.2.2.1 100⟩
